import Mathlib

/-!
Shallow embedding of the session coordinator of `mode-3-backend/gemini_live.py`
(class `GeminiLiveClient` and its module-level configuration).  Times are
rationals (seconds); payloads are byte lists; the asyncio queues are Lean
lists with the front of the list as the oldest (first-out) element.
-/

namespace GeminiLive

/-- `AUDIO_QUEUE_MAX_SIZE = 5` from the configuration block. -/
def AUDIO_QUEUE_MAX_SIZE : Nat := 5

/-- `SCREEN_QUEUE_SIZE = 1` from the configuration block. -/
def SCREEN_QUEUE_SIZE : Nat := 1

/-- `AUDIO_MAX_BACKLOG_MS = 200` (milliseconds). -/
def AUDIO_MAX_BACKLOG_MS : ℚ := 200

/-- `SCREEN_MAX_AGE_MS = 500` (milliseconds). -/
def SCREEN_MAX_AGE_MS : ℚ := 500

/-- `STALL_TIMEOUT_S = 15` (seconds). -/
def STALL_TIMEOUT_S : ℚ := 15

/-- `LATENCY_WINDOW_SIZE = 50` (rolling-window capacity of each deque). -/
def LATENCY_WINDOW_SIZE : Nat := 50

/-- `SCREEN_FPS = 2` (maximum screen capture rate). -/
def SCREEN_FPS : Nat := 2

/-- `SCREEN_FPS_MIN = 1` (minimum screen capture rate under load). -/
def SCREEN_FPS_MIN : Nat := 1

/-- `SCREEN_SEND_ONLY_DURING_TURN = True`. -/
def SCREEN_SEND_ONLY_DURING_TURN : Bool := true

/-- `SEND_SILENCE_AFTER_PTT_MS = 500` (milliseconds of silence padding). -/
def SEND_SILENCE_AFTER_PTT_MS : Nat := 500

/-- `CHUNK_SIZE = 1024` (samples per audio chunk). -/
def CHUNK_SIZE : Nat := 1024

/-- `max_reconnects = 5` in `GeminiLiveClient.run`. -/
def max_reconnects : Nat := 5

/-- `TimestampedData`: an opaque byte payload plus its capture timestamp
(seconds).  `age_ms` is derived below. -/
structure TimestampedData where
  data : List Nat
  timestamp : ℚ
deriving DecidableEq, Repr

/-- `TimestampedData.age_ms` evaluated at time `now`:
`(now - timestamp) * 1000`. -/
def ageMs (now : ℚ) (t : TimestampedData) : ℚ :=
  (now - t.timestamp) * 1000

/-- Appending to a `deque(maxlen=LATENCY_WINDOW_SIZE)`: when the window is
full the leftmost (oldest) sample is discarded. -/
def pushWindow (w : List ℚ) (x : ℚ) : List ℚ :=
  if w.length < LATENCY_WINDOW_SIZE then w ++ [x] else w.tail ++ [x]

/-- Mean of a rolling window, `0` when empty
(`LatencyStats.avg_screen_ms` / `avg_audio_ms`). -/
def windowAvg (w : List ℚ) : ℚ :=
  if w.length = 0 then 0 else w.sum / w.length

/-- The mutable state of one `GeminiLiveClient`.  Queues are lists with the
front as the oldest element.  `uuid.uuid4()` turn-id generation is modelled
by a fresh-name supply: `next_turn_counter` is the next fresh id and the
ghost field `assigned_ids` records every id handed out so far, so that
freshness of new ids is statable. -/
structure ClientState where
  audio_queue_in : List TimestampedData
  video_queue_in : List TimestampedData
  muted : Bool
  ptt_active : Bool
  push_to_talk_mode : Bool
  current_turn_id : Option Nat
  turn_end_requested : Bool
  last_turn_end_time : ℚ
  audio_chunks_sent_this_turn : Nat
  silence_chunks_to_send : Nat
  audio_drop_count : Nat
  screen_drop_count : Nat
  current_screen_fps : Nat
  frame_count : Nat
  audio_latency_window : List ℚ
  screen_latency_window : List ℚ
  next_turn_counter : Nat
  assigned_ids : List Nat
deriving DecidableEq, Repr

/-- The `muted` property: in push-to-talk mode the client is muted exactly
when the PTT key is not held; otherwise the `_muted` flag decides. -/
def mutedOf (s : ClientState) : Bool :=
  if s.push_to_talk_mode then !s.ptt_active else s.muted

/-- `__init__`-like state (fields relevant to the coordinator): starts muted,
PTT inactive, no turn, empty queues, `current_screen_fps = SCREEN_FPS`. -/
def initState (pttMode : Bool) : ClientState where
  audio_queue_in := []
  video_queue_in := []
  muted := true
  ptt_active := false
  push_to_talk_mode := pttMode
  current_turn_id := none
  turn_end_requested := false
  last_turn_end_time := 0
  audio_chunks_sent_this_turn := 0
  silence_chunks_to_send := 0
  audio_drop_count := 0
  screen_drop_count := 0
  current_screen_fps := SCREEN_FPS
  frame_count := 0
  audio_latency_window := []
  screen_latency_window := []
  next_turn_counter := 0
  assigned_ids := []

/-- Shared body of the turn-start branches (`toggle_mute` unmute branch and
`_on_ptt_press` after the key-repeat guard): clear both queues, assign a
fresh turn id, reset `_audio_chunks_sent_this_turn` to 0. -/
def enterActive (s : ClientState) : ClientState :=
  { s with
    audio_queue_in := []
    video_queue_in := []
    current_turn_id := some s.next_turn_counter
    next_turn_counter := s.next_turn_counter + 1
    assigned_ids := s.assigned_ids ++ [s.next_turn_counter]
    audio_chunks_sent_this_turn := 0 }

/-- `_request_turn_end`: sets the `_turn_end_requested` event and records
`_last_turn_end_time = time.time()` (the event loop is modelled as running,
so the guard `self._loop and self._loop.is_running()` is taken). -/
def request_turn_end (now : ℚ) (s : ClientState) : ClientState :=
  { s with turn_end_requested := true, last_turn_end_time := now }

/-- `toggle_mute` at time `now`.  Unmute: enter Active (clear queues, fresh
turn id, zero chunk counter).  Mute: keep the audio queue (remaining chunks
must still be sent); when a turn id is set and chunks were sent, schedule
`max(1, SEND_SILENCE_AFTER_PTT_MS // 64)` silence chunks and request a
turn end. -/
def toggle_mute (now : ℚ) (s : ClientState) : ClientState :=
  if s.muted then
    { enterActive s with muted := false }
  else
    let s1 := { s with muted := true }
    if s1.current_turn_id.isSome && decide (0 < s1.audio_chunks_sent_this_turn) then
      request_turn_end now
        { s1 with silence_chunks_to_send := max 1 (SEND_SILENCE_AFTER_PTT_MS / 64) }
    else
      s1

/-- `_on_ptt_press`: key-repeat while PTT is already active is a no-op;
otherwise enter Active and set the PTT flag. -/
def on_ptt_press (s : ClientState) : ClientState :=
  if s.ptt_active then s
  else { enterActive s with ptt_active := true }

/-- `_on_ptt_release` at time `now`: ignored when PTT is not active;
otherwise clear the PTT flag (the audio queue is deliberately kept) and,
when a turn id is set and chunks were sent, schedule silence chunks and
request a turn end. -/
def on_ptt_release (now : ℚ) (s : ClientState) : ClientState :=
  if !s.ptt_active then s
  else
    let s1 := { s with ptt_active := false }
    if s1.current_turn_id.isSome then
      if 0 < s1.audio_chunks_sent_this_turn then
        request_turn_end now
          { s1 with silence_chunks_to_send := max 1 (SEND_SILENCE_AFTER_PTT_MS / 64) }
      else
        s1
    else
      s1

/-- One deposit into the bounded audio queue, from `listen_audio`: when the
queue is full, pop the oldest entry and count a drop, then insert the new
item (the `QueueFull` safety branch, unreachable from states within
capacity, drops the new item and counts another drop). -/
def audioDeposit (s : ClientState) (item : TimestampedData) : ClientState :=
  if AUDIO_QUEUE_MAX_SIZE ≤ s.audio_queue_in.length then
    match s.audio_queue_in with
    | [] => { s with audio_queue_in := [item] }
    | _ :: rest =>
      if AUDIO_QUEUE_MAX_SIZE ≤ rest.length then
        { s with audio_queue_in := rest, audio_drop_count := s.audio_drop_count + 2 }
      else
        { s with
          audio_queue_in := rest ++ [item]
          audio_drop_count := s.audio_drop_count + 1 }
  else
    { s with audio_queue_in := s.audio_queue_in ++ [item] }

/-- One microphone read handled by `listen_audio` at time `now`: the chunk is
deposited only when it is non-empty and the client is not muted
(`if data and not self.muted`). -/
def listenStep (s : ClientState) (payload : List Nat) (now : ℚ) : ClientState :=
  if payload ≠ [] ∧ mutedOf s = false then
    audioDeposit s ⟨payload, now⟩
  else
    s

/-- One deposit into the capacity-1 video queue, from `capture_screen`: when
full, pop the old frame counting a drop, then insert the new frame (the
`QueueFull` safety branch drops the new frame and counts another drop). -/
def videoDeposit (s : ClientState) (frame : TimestampedData) : ClientState :=
  if SCREEN_QUEUE_SIZE ≤ s.video_queue_in.length then
    match s.video_queue_in with
    | [] => { s with video_queue_in := [frame] }
    | _ :: rest =>
      if SCREEN_QUEUE_SIZE ≤ rest.length then
        { s with video_queue_in := rest, screen_drop_count := s.screen_drop_count + 2 }
      else
        { s with
          video_queue_in := rest ++ [frame]
          screen_drop_count := s.screen_drop_count + 1 }
  else
    { s with video_queue_in := s.video_queue_in ++ [frame] }

/-- The adaptive-FPS adjustment performed every 30th frame in
`capture_screen`: if the rolling mean screen latency is strictly above 80%
of `SCREEN_MAX_AGE_MS`, decrement the FPS (floored at `SCREEN_FPS_MIN`);
else if it is strictly below 30% of the budget and the FPS is below
`SCREEN_FPS`, increment it (capped at `SCREEN_FPS`). -/
def fpsAdjust (fps : Nat) (avg : ℚ) : Nat :=
  if SCREEN_MAX_AGE_MS * (8 / 10) < avg then
    max SCREEN_FPS_MIN (fps - 1)
  else if avg < SCREEN_MAX_AGE_MS * (3 / 10) ∧ fps < SCREEN_FPS then
    min SCREEN_FPS (fps + 1)
  else
    fps

/-- One iteration of the `capture_screen` loop body (queue effects only):
deposit the freshly captured frame, bump `frame_count`, and on every 30th
frame run the adaptive-FPS adjustment against the rolling mean of the
screen-latency window. -/
def captureScreenStep (s : ClientState) (frame : TimestampedData) : ClientState :=
  let s1 := videoDeposit s frame
  let s2 := { s1 with frame_count := s1.frame_count + 1 }
  if s2.frame_count % 30 = 0 then
    { s2 with
      current_screen_fps :=
        fpsAdjust s2.current_screen_fps (windowAvg s2.screen_latency_window) }
  else
    s2

/-- One payload handed to `session.send_realtime_input` by the egress
dispatcher: `isAudio = true` for audio chunks (including synthesized
silence), `false` for screen frames. -/
structure Sent where
  isAudio : Bool
  payload : List Nat
deriving DecidableEq, Repr

/-- The all-zero silence payload of `send_to_api`:
`bytes(CHUNK_SIZE * 2)` (16-bit samples, 2 bytes each). -/
def silenceBytes : List Nat := List.replicate (CHUNK_SIZE * 2) 0

/-- The audio priority drain of `send_to_api`: pop chunks until the queue is
empty; a chunk whose age exceeds `AUDIO_MAX_BACKLOG_MS` is discarded and
counted, otherwise it is forwarded, its send latency recorded, and
`_audio_chunks_sent_this_turn` incremented.  The popped chunks arrive as the
list argument; `s` already has its audio queue emptied. -/
def drainAudioLoop (now : ℚ) : List TimestampedData → ClientState → ClientState × List Sent
  | [], s => (s, [])
  | item :: rest, s =>
    if AUDIO_MAX_BACKLOG_MS < ageMs now item then
      drainAudioLoop now rest { s with audio_drop_count := s.audio_drop_count + 1 }
    else
      let r := drainAudioLoop now rest
        { s with
          audio_latency_window := pushWindow s.audio_latency_window (ageMs now item)
          audio_chunks_sent_this_turn := s.audio_chunks_sent_this_turn + 1 }
      (r.1, ⟨true, item.data⟩ :: r.2)

/-- `should_send_screen` in `send_to_api`: with
`SCREEN_SEND_ONLY_DURING_TURN` set, frames are sent only while unmuted. -/
def shouldSendScreen (s : ClientState) : Bool :=
  if SCREEN_SEND_ONLY_DURING_TURN then !(mutedOf s) else true

/-- One iteration of the `send_to_api` loop body at time `now`, returning the
new state and the payloads forwarded to the transport, in order: (1) clear a
pending turn-end signal; (2) send one silence chunk if any are pending;
(3) drain the whole audio queue under the backlog budget; (4) pop at most
one video frame and forward it only if the turn gate passes and its age is
within `SCREEN_MAX_AGE_MS`. -/
def sendTick (now : ℚ) (s : ClientState) : ClientState × List Sent :=
  let s1 := if s.turn_end_requested then { s with turn_end_requested := false } else s
  let sil : List Sent :=
    if 0 < s1.silence_chunks_to_send then [⟨true, silenceBytes⟩] else []
  let s2 :=
    if 0 < s1.silence_chunks_to_send then
      { s1 with silence_chunks_to_send := s1.silence_chunks_to_send - 1 }
    else s1
  let r := drainAudioLoop now s2.audio_queue_in { s2 with audio_queue_in := [] }
  let s3 := r.1
  match s3.video_queue_in with
  | [] => (s3, sil ++ r.2)
  | f :: rest =>
    let s4 := { s3 with video_queue_in := rest }
    if !(shouldSendScreen s4) then
      (s4, sil ++ r.2)
    else if SCREEN_MAX_AGE_MS < ageMs now f then
      ({ s4 with screen_drop_count := s4.screen_drop_count + 1 }, sil ++ r.2)
    else
      ({ s4 with
          screen_latency_window := pushWindow s4.screen_latency_window (ageMs now f) },
        sil ++ r.2 ++ [⟨false, f.data⟩])

/-- Outcome of one `stall_detector` poll: whether a warning was logged and
whether the fatal stall exception was raised. -/
structure StallResult where
  warned : Bool
  fatal : Bool
deriving DecidableEq, Repr

/-- One poll of `stall_detector` at time `now`: only acts when
`_last_turn_end_time > 0` and `_current_turn_id` is set; warns when the wait
exceeds `STALL_TIMEOUT_S` and raises when it exceeds `2 * STALL_TIMEOUT_S`.
The poll never mutates the client state. -/
def stallCheck (now : ℚ) (s : ClientState) : StallResult :=
  if 0 < s.last_turn_end_time ∧ s.current_turn_id.isSome then
    let wait := now - s.last_turn_end_time
    { warned := decide (STALL_TIMEOUT_S < wait)
      fatal := decide (STALL_TIMEOUT_S * 2 < wait) }
  else
    { warned := false, fatal := false }

/-- The reconnect logic of `GeminiLiveClient.run` restricted to a run of
consecutive connect-time failures: from reconnect count `rc`, process `k`
consecutive failed connection attempts; each failure increments the count
and, while the count is still below `max_reconnects`, sleeps
`min(30, 2 ** reconnect_count)` seconds before retrying; reaching
`max_reconnects` gives up.  Returns the list of backoff waits performed and
whether the loop terminated permanently. -/
def superviseFailures : Nat → Nat → List Nat × Bool
  | _, 0 => ([], false)
  | rc, k + 1 =>
    if rc < max_reconnects then
      if rc + 1 < max_reconnects then
        let r := superviseFailures (rc + 1) k
        (min 30 (2 ^ (rc + 1)) :: r.1, r.2)
      else
        ([], true)
    else
      ([], true)

/-- The coordinator events that can mutate the client state during one
connected session. -/
inductive Ev where
  | listen (payload : List Nat) (now : ℚ)
  | toggle (now : ℚ)
  | pttPress
  | pttRelease (now : ℚ)
  | screenCap (frame : TimestampedData)
  | tick (now : ℚ)
deriving DecidableEq, Repr

/-- Dispatch one coordinator event. -/
def step (s : ClientState) : Ev → ClientState
  | .listen d now => listenStep s d now
  | .toggle now => toggle_mute now s
  | .pttPress => on_ptt_press s
  | .pttRelease now => on_ptt_release now s
  | .screenCap f => captureScreenStep s f
  | .tick now => (sendTick now s).1

/-- Run a list of coordinator events. -/
def run (s : ClientState) (evs : List Ev) : ClientState :=
  List.foldl step s evs

/-- The chunks of a queue that are over the audio backlog budget at `now`
(those the drain discards). -/
def staleOf (now : ℚ) (q : List TimestampedData) : List TimestampedData :=
  q.filter (fun t => decide (AUDIO_MAX_BACKLOG_MS < ageMs now t))

/-- The chunks of a queue that are within the audio backlog budget at `now`
(those the drain forwards). -/
def freshOf (now : ℚ) (q : List TimestampedData) : List TimestampedData :=
  q.filter (fun t => !decide (AUDIO_MAX_BACKLOG_MS < ageMs now t))

/-- Screen frames forwarded by one egress tick: at most the front of the
video queue, and only when the turn gate passes and the frame is within the
screen-age budget. -/
def videoSent (now : ℚ) (s : ClientState) : List Sent :=
  match s.video_queue_in with
  | [] => []
  | f :: _ =>
    if shouldSendScreen s && decide (ageMs now f ≤ SCREEN_MAX_AGE_MS) then
      [Sent.mk false f.data]
    else []

/-- Screen drops counted by one egress tick: one when the popped frame
passes the gate but violates the age budget. -/
def videoAgeDrop (now : ℚ) (s : ClientState) : Nat :=
  match s.video_queue_in with
  | [] => 0
  | f :: _ =>
    if shouldSendScreen s && decide (SCREEN_MAX_AGE_MS < ageMs now f) then 1 else 0

/-- The screen-latency window after one egress tick: extended by the sent
frame's age exactly when a frame is forwarded. -/
def videoWindowAfter (now : ℚ) (s : ClientState) : List ℚ :=
  match s.video_queue_in with
  | [] => s.screen_latency_window
  | f :: _ =>
    if shouldSendScreen s && decide (ageMs now f ≤ SCREEN_MAX_AGE_MS) then
      pushWindow s.screen_latency_window (ageMs now f)
    else s.screen_latency_window

/-- Characterization of the audio priority drain on the state: it empties
nothing else, adds one drop per stale chunk, one sent chunk per fresh chunk,
and records the fresh chunks' ages in the audio-latency window in order. -/
theorem drainAudioLoop_fst (now : ℚ) (q : List TimestampedData) (s : ClientState) :
    (drainAudioLoop now q s).1 =
      { s with
        audio_drop_count := s.audio_drop_count + (staleOf now q).length
        audio_chunks_sent_this_turn :=
          s.audio_chunks_sent_this_turn + (freshOf now q).length
        audio_latency_window :=
          List.foldl pushWindow s.audio_latency_window
            ((freshOf now q).map (ageMs now)) } := by
  induction q generalizing s with
  | nil =>
    simp [drainAudioLoop, staleOf, freshOf]
  | cons t rest ih =>
    by_cases h : AUDIO_MAX_BACKLOG_MS < ageMs now t
    · simp only [drainAudioLoop, if_pos h]
      rw [ih]
      simp [staleOf, freshOf, h, Nat.add_assoc, Nat.add_comm 1]
    · simp only [drainAudioLoop, if_neg h]
      rw [ih]
      simp [staleOf, freshOf, h, Nat.add_assoc, Nat.add_comm 1]

/-- Characterization of the payloads forwarded by the audio priority drain:
exactly the fresh chunks, in queue order. -/
theorem drainAudioLoop_snd (now : ℚ) (q : List TimestampedData) (s : ClientState) :
    (drainAudioLoop now q s).2 =
      (freshOf now q).map (fun t => Sent.mk true t.data) := by
  induction q generalizing s with
  | nil => simp [drainAudioLoop, freshOf]
  | cons t rest ih =>
    by_cases h : AUDIO_MAX_BACKLOG_MS < ageMs now t
    · simp only [drainAudioLoop, if_pos h]
      rw [ih]
      simp [freshOf, h]
    · simp only [drainAudioLoop, if_neg h]
      rw [ih]
      simp [freshOf, h]

/-- Characterization of one egress tick on the state: the turn-end signal is
cleared, at most one pending silence chunk is consumed, the audio queue is
drained to empty with per-chunk budget accounting, and at most the front
video frame is popped with gate/age accounting. -/
theorem sendTick_fst (now : ℚ) (s : ClientState) :
    (sendTick now s).1 =
      { s with
        turn_end_requested := false
        silence_chunks_to_send := s.silence_chunks_to_send - 1
        audio_queue_in := []
        audio_drop_count := s.audio_drop_count + (staleOf now s.audio_queue_in).length
        audio_chunks_sent_this_turn :=
          s.audio_chunks_sent_this_turn + (freshOf now s.audio_queue_in).length
        audio_latency_window :=
          List.foldl pushWindow s.audio_latency_window
            ((freshOf now s.audio_queue_in).map (ageMs now))
        video_queue_in := s.video_queue_in.tail
        screen_drop_count := s.screen_drop_count + videoAgeDrop now s
        screen_latency_window := videoWindowAfter now s } := by
  obtain ⟨aq, vq, m, pa, pm, tid, ter, lte, acs, scs, adc, sdc, fps, fc, alw, slw, ntc, aid⟩ := s
  unfold sendTick
  cases ter <;> by_cases hsc : 0 < scs <;>
    simp only [if_true, if_false, hsc, ite_true, ite_false, Bool.false_eq_true, reduceIte] <;>
    rw [drainAudioLoop_fst] <;>
    cases vq with
    | nil =>
      simp [videoAgeDrop, videoWindowAfter] <;> omega
    | cons f rest =>
      by_cases hm : (if pm then !pa else m) = true
      · simp [videoAgeDrop, videoWindowAfter, shouldSendScreen, mutedOf,
          SCREEN_SEND_ONLY_DURING_TURN, hm] <;> omega
      · by_cases ha : ageMs now f ≤ SCREEN_MAX_AGE_MS
        · simp [videoAgeDrop, videoWindowAfter, shouldSendScreen, mutedOf,
            SCREEN_SEND_ONLY_DURING_TURN, hm, if_neg (not_lt.mpr ha), ha] <;> omega
        · simp [videoAgeDrop, videoWindowAfter, shouldSendScreen, mutedOf,
            SCREEN_SEND_ONLY_DURING_TURN, hm, if_pos (not_le.mp ha), ha] <;> omega

/-- Characterization of the payloads one egress tick forwards, in order: an
optional silence chunk, then every within-budget audio chunk in queue order,
then at most one gated, within-budget video frame. -/
theorem sendTick_snd (now : ℚ) (s : ClientState) :
    (sendTick now s).2 =
      (if 0 < s.silence_chunks_to_send then [Sent.mk true silenceBytes] else [])
        ++ (freshOf now s.audio_queue_in).map (fun t => Sent.mk true t.data)
        ++ videoSent now s := by
  obtain ⟨aq, vq, m, pa, pm, tid, ter, lte, acs, scs, adc, sdc, fps, fc, alw, slw, ntc, aid⟩ := s
  unfold sendTick
  cases ter <;> by_cases hsc : 0 < scs <;>
    simp only [if_true, if_false, hsc, ite_true, ite_false, Bool.false_eq_true, reduceIte] <;>
    rw [drainAudioLoop_fst] <;>
    cases vq with
    | nil =>
      simp [videoSent, drainAudioLoop_snd, hsc]
    | cons f rest =>
      by_cases hm : (if pm then !pa else m) = true
      · simp [videoSent, drainAudioLoop_snd, shouldSendScreen, mutedOf,
          SCREEN_SEND_ONLY_DURING_TURN, hm, hsc]
      · by_cases ha : ageMs now f ≤ SCREEN_MAX_AGE_MS
        · simp [videoSent, drainAudioLoop_snd, shouldSendScreen, mutedOf,
            SCREEN_SEND_ONLY_DURING_TURN, hm, if_neg (not_lt.mpr ha), ha, hsc]
        · simp [videoSent, drainAudioLoop_snd, shouldSendScreen, mutedOf,
            SCREEN_SEND_ONLY_DURING_TURN, hm, if_pos (not_le.mp ha), ha, hsc]

/-- Claim C1 counterexample: the claim asserts that with
`silence_padding_ms = 500` and `chunk_duration_ms = 64` the pending
silence-chunk counter equals 8, but at a concrete Active state with three
chunks sent, `toggle_mute` to muted sets the counter to
`max(1, 500 // 64) = 7`. -/
theorem C1_counterexample :
    (toggle_mute 10 { initState false with
        muted := false, current_turn_id := some 0,
        audio_chunks_sent_this_turn := 3 }).silence_chunks_to_send = 7 ∧
    (toggle_mute 10 { initState false with
        muted := false, current_turn_id := some 0,
        audio_chunks_sent_this_turn := 3 }).silence_chunks_to_send ≠ 8 := by
  decide

/-- Claim C1 (amended): closing a turn (`toggle_mute` to muted, or PTT
release) with a turn id set and `chunks_sent > 0` sets the pending
silence-chunk counter to `max(1, silence_padding_ms // chunk_duration_ms)`
and requests a turn end; with `silence_padding_ms = 500` and
`chunk_duration_ms = 64` the counter equals 7 (the claim said 8); with
`chunks_sent = 0` no silence padding is scheduled and no turn end is
requested. -/
theorem C1_silence_padding (now : ℚ) (s : ClientState) :
    (s.muted = false →
      ((s.current_turn_id.isSome = true ∧ 0 < s.audio_chunks_sent_this_turn) →
        (toggle_mute now s).silence_chunks_to_send =
          max 1 (SEND_SILENCE_AFTER_PTT_MS / 64) ∧
        (toggle_mute now s).turn_end_requested = true ∧
        (toggle_mute now s).last_turn_end_time = now) ∧
      (s.audio_chunks_sent_this_turn = 0 →
        (toggle_mute now s).silence_chunks_to_send = s.silence_chunks_to_send ∧
        (toggle_mute now s).turn_end_requested = s.turn_end_requested ∧
        (toggle_mute now s).last_turn_end_time = s.last_turn_end_time)) ∧
    (s.ptt_active = true →
      ((s.current_turn_id.isSome = true ∧ 0 < s.audio_chunks_sent_this_turn) →
        (on_ptt_release now s).silence_chunks_to_send =
          max 1 (SEND_SILENCE_AFTER_PTT_MS / 64) ∧
        (on_ptt_release now s).turn_end_requested = true ∧
        (on_ptt_release now s).last_turn_end_time = now) ∧
      (s.audio_chunks_sent_this_turn = 0 →
        (on_ptt_release now s).silence_chunks_to_send = s.silence_chunks_to_send ∧
        (on_ptt_release now s).turn_end_requested = s.turn_end_requested ∧
        (on_ptt_release now s).last_turn_end_time = s.last_turn_end_time)) ∧
    max 1 (SEND_SILENCE_AFTER_PTT_MS / 64) = 7 := by
  refine ⟨fun hm => ⟨fun hc => ?_, fun hz => ?_⟩,
    fun hp => ⟨fun hc => ?_, fun hz => ?_⟩, by decide⟩
  · simp [toggle_mute, request_turn_end, hm, hc.1, hc.2]
  · simp [toggle_mute, request_turn_end, hm, hz]
  · simp [on_ptt_release, request_turn_end, hp, hc.1, hc.2]
  · simp [on_ptt_release, request_turn_end, hp, hz]

/-- Witness for the amended C1 at a concrete closing state. -/
theorem C1_silence_padding_witness :
    (toggle_mute 10 { initState false with
        muted := false, current_turn_id := some 0,
        audio_chunks_sent_this_turn := 3 }).silence_chunks_to_send =
      max 1 (SEND_SILENCE_AFTER_PTT_MS / 64) :=
  (((C1_silence_padding 10 { initState false with
      muted := false, current_turn_id := some 0,
      audio_chunks_sent_this_turn := 3 }).1 (by decide)).1 (by decide)).1

/-- Claim C2 counterexample: starting from a reset attempt counter, five
consecutive connect-time failures produce the backoff waits 2, 4, 8, 16 and
then permanent termination: the claimed schedule 2, 4, 8, 16, 30 with
termination only at attempt 6 does not match the code, whose 30-second cap
is never reached. -/
theorem C2_counterexample :
    superviseFailures 0 5 = ([2, 4, 8, 16], true) ∧
    (superviseFailures 0 5).1 ≠ [2, 4, 8, 16, 30] ∧
    (superviseFailures 0 5).2 ≠ false := by
  decide

/-- Claim C2 (amended): for consecutive connect-time failures the supervisor
waits `min(30, 2 ** attempt)` seconds after failed attempts 1..4, giving
2, 4, 8, 16 seconds, and the 5th consecutive failure (`max_reconnects`)
triggers permanent termination of the session loop with no further wait. -/
theorem C2_backoff_schedule :
    superviseFailures 0 1 = ([min 30 (2 ^ 1)], false) ∧
    superviseFailures 0 2 = ([2, 4], false) ∧
    superviseFailures 0 3 = ([2, 4, 8], false) ∧
    superviseFailures 0 4 = ([min 30 (2 ^ 1), min 30 (2 ^ 2), min 30 (2 ^ 3),
      min 30 (2 ^ 4)], false) ∧
    superviseFailures 0 4 = ([2, 4, 8, 16], false) ∧
    superviseFailures 0 5 = ([2, 4, 8, 16], true) ∧
    superviseFailures 0 6 = ([2, 4, 8, 16], true) := by
  decide

/-- Claim C9: the stall detector acts only when `_last_turn_end_time > 0`
and a turn id is set; a 10-second wait triggers nothing, a wait above
`STALL_TIMEOUT_S` (15 s) triggers a warning, and a wait above twice that
(30 s) triggers the fatal stall.  `stallCheck` returns observations without
touching the client state, so no check changes state. -/
theorem C9_stall_detector (now : ℚ) (s : ClientState) :
    (¬(0 < s.last_turn_end_time ∧ s.current_turn_id.isSome = true) →
      stallCheck now s = ⟨false, false⟩) ∧
    (0 < s.last_turn_end_time → s.current_turn_id.isSome = true →
      (now - s.last_turn_end_time ≤ STALL_TIMEOUT_S →
        stallCheck now s = ⟨false, false⟩) ∧
      (STALL_TIMEOUT_S < now - s.last_turn_end_time →
        (stallCheck now s).warned = true) ∧
      (now - s.last_turn_end_time ≤ STALL_TIMEOUT_S * 2 →
        (stallCheck now s).fatal = false) ∧
      (STALL_TIMEOUT_S * 2 < now - s.last_turn_end_time →
        (stallCheck now s).fatal = true)) := by
  constructor
  · intro h
    simp [stallCheck, h]
  · intro h1 h2
    refine ⟨fun hw => ?_, fun hw => ?_, fun hw => ?_, fun hw => ?_⟩ <;>
      simp [stallCheck, h1, h2, StallResult.mk.injEq, decide_eq_true_eq,
        decide_eq_false_iff_not, not_lt] <;>
      first
        | exact hw
        | (norm_num [STALL_TIMEOUT_S] at hw ⊢; constructor <;> linarith)
        | (norm_num [STALL_TIMEOUT_S] at hw ⊢; linarith)

/-- Witness for C9 at the claim's three concrete waits: a turn ended at
time 5 and checks at times 15 (wait 10 s: nothing), 21 (wait 16 s: warning,
not fatal) and 36 (wait 31 s: fatal). -/
theorem C9_stall_detector_witness :
    stallCheck 15 { initState false with
        last_turn_end_time := 5, current_turn_id := some 0 } = ⟨false, false⟩ ∧
    (stallCheck 21 { initState false with
        last_turn_end_time := 5, current_turn_id := some 0 }).warned = true ∧
    (stallCheck 21 { initState false with
        last_turn_end_time := 5, current_turn_id := some 0 }).fatal = false ∧
    (stallCheck 36 { initState false with
        last_turn_end_time := 5, current_turn_id := some 0 }).fatal = true :=
  ⟨((C9_stall_detector 15 { initState false with
      last_turn_end_time := 5, current_turn_id := some 0 }).2 (by norm_num)
      (by decide)).1 (by norm_num [STALL_TIMEOUT_S]),
   (((C9_stall_detector 21 { initState false with
      last_turn_end_time := 5, current_turn_id := some 0 }).2 (by norm_num)
      (by decide)).2.1 (by norm_num [STALL_TIMEOUT_S])),
   (((C9_stall_detector 21 { initState false with
      last_turn_end_time := 5, current_turn_id := some 0 }).2 (by norm_num)
      (by decide)).2.2.1 (by norm_num [STALL_TIMEOUT_S])),
   (((C9_stall_detector 36 { initState false with
      last_turn_end_time := 5, current_turn_id := some 0 }).2 (by norm_num)
      (by decide)).2.2.2 (by norm_num [STALL_TIMEOUT_S]))⟩

/-- One audio deposit keeps the queue within `AUDIO_QUEUE_MAX_SIZE`. -/
theorem audioDeposit_length_le (s : ClientState) (item : TimestampedData)
    (h : s.audio_queue_in.length ≤ AUDIO_QUEUE_MAX_SIZE) :
    (audioDeposit s item).audio_queue_in.length ≤ AUDIO_QUEUE_MAX_SIZE := by
  unfold audioDeposit
  rcases hq : s.audio_queue_in with _ | ⟨e, rest⟩ <;>
    rw [hq] at h <;>
    simp only [hq, List.length_cons, List.length_nil, AUDIO_QUEUE_MAX_SIZE] at h ⊢ <;>
    split <;> (try split) <;>
    simp_all [List.length_append, AUDIO_QUEUE_MAX_SIZE] <;>
    omega

/-- Claim C3: the capacity-5 audio queue never exceeds 5 items under any
deposit sequence; a deposit made while the queue is full pops exactly the
front element — which, when the queue is timestamp-ordered, is the
oldest-by-timestamp one — and counts one drop before inserting the new
item; a deposit into a non-full queue drops nothing. -/
theorem C3_audio_queue_bounded_drop_oldest (s : ClientState)
    (item e : TimestampedData) (rest ds : List TimestampedData) :
    (s.audio_queue_in.length ≤ AUDIO_QUEUE_MAX_SIZE →
      (List.foldl audioDeposit s ds).audio_queue_in.length ≤ AUDIO_QUEUE_MAX_SIZE) ∧
    (s.audio_queue_in = e :: rest → s.audio_queue_in.length = AUDIO_QUEUE_MAX_SIZE →
      (audioDeposit s item).audio_queue_in = rest ++ [item] ∧
      (audioDeposit s item).audio_drop_count = s.audio_drop_count + 1 ∧
      (List.Pairwise (fun a b => a.timestamp ≤ b.timestamp) s.audio_queue_in →
        ∀ y ∈ s.audio_queue_in, e.timestamp ≤ y.timestamp)) ∧
    (s.audio_queue_in.length < AUDIO_QUEUE_MAX_SIZE →
      (audioDeposit s item).audio_queue_in = s.audio_queue_in ++ [item] ∧
      (audioDeposit s item).audio_drop_count = s.audio_drop_count) := by
  refine ⟨?_, ?_, ?_⟩
  · intro h
    induction ds generalizing s with
    | nil => simpa using h
    | cons d ds ih => exact ih _ (audioDeposit_length_le s d h)
  · intro hq hlen
    rw [hq] at hlen
    simp only [List.length_cons, AUDIO_QUEUE_MAX_SIZE] at hlen
    have hT : AUDIO_QUEUE_MAX_SIZE ≤ rest.length + 1 := by
      simp only [AUDIO_QUEUE_MAX_SIZE]
      omega
    have hF : ¬ AUDIO_QUEUE_MAX_SIZE ≤ rest.length := by
      simp only [AUDIO_QUEUE_MAX_SIZE]
      omega
    refine ⟨?_, ?_, ?_⟩
    · simp [audioDeposit, hq, hT, hF]
    · simp [audioDeposit, hq, hT, hF]
    · intro hp y hy
      rw [hq] at hp hy
      rcases List.mem_cons.mp hy with rfl | hy
      · exact le_refl _
      · exact (List.pairwise_cons.mp hp).1 y hy
  · intro hlt
    have h5 : ¬ AUDIO_QUEUE_MAX_SIZE ≤ s.audio_queue_in.length := not_le.mpr hlt
    constructor <;> simp [audioDeposit, h5]

/-- Witness for C3: a full queue of five timestamp-ordered chunks evicts the
front (oldest) chunk on the next deposit and counts one drop, and a fold of
six deposits from empty stays within capacity. -/
theorem C3_audio_queue_bounded_drop_oldest_witness :
    (List.foldl audioDeposit { initState false with
        audio_queue_in := [⟨[0], 0⟩, ⟨[1], 1⟩, ⟨[2], 2⟩, ⟨[3], 3⟩, ⟨[4], 4⟩] }
      [⟨[5], 5⟩, ⟨[6], 6⟩]).audio_queue_in.length ≤ AUDIO_QUEUE_MAX_SIZE ∧
    (audioDeposit { initState false with
        audio_queue_in := [⟨[0], 0⟩, ⟨[1], 1⟩, ⟨[2], 2⟩, ⟨[3], 3⟩, ⟨[4], 4⟩] }
      ⟨[5], 5⟩).audio_queue_in =
        [⟨[1], 1⟩, ⟨[2], 2⟩, ⟨[3], 3⟩, ⟨[4], 4⟩] ++ [⟨[5], 5⟩] ∧
    (audioDeposit { initState false with
        audio_queue_in := [⟨[0], 0⟩, ⟨[1], 1⟩, ⟨[2], 2⟩, ⟨[3], 3⟩, ⟨[4], 4⟩] }
      ⟨[5], 5⟩).audio_drop_count =
      ({ initState false with
        audio_queue_in := [⟨[0], 0⟩, ⟨[1], 1⟩, ⟨[2], 2⟩, ⟨[3], 3⟩, ⟨[4], 4⟩]
          : ClientState }).audio_drop_count + 1 :=
  ⟨(C3_audio_queue_bounded_drop_oldest { initState false with
      audio_queue_in := [⟨[0], 0⟩, ⟨[1], 1⟩, ⟨[2], 2⟩, ⟨[3], 3⟩, ⟨[4], 4⟩] }
      ⟨[5], 5⟩ ⟨[0], 0⟩ [⟨[1], 1⟩, ⟨[2], 2⟩, ⟨[3], 3⟩, ⟨[4], 4⟩]
      [⟨[5], 5⟩, ⟨[6], 6⟩]).1 (by decide),
   ((C3_audio_queue_bounded_drop_oldest { initState false with
      audio_queue_in := [⟨[0], 0⟩, ⟨[1], 1⟩, ⟨[2], 2⟩, ⟨[3], 3⟩, ⟨[4], 4⟩] }
      ⟨[5], 5⟩ ⟨[0], 0⟩ [⟨[1], 1⟩, ⟨[2], 2⟩, ⟨[3], 3⟩, ⟨[4], 4⟩]
      [⟨[5], 5⟩, ⟨[6], 6⟩]).2.1 (by decide) (by decide)).1,
   ((C3_audio_queue_bounded_drop_oldest { initState false with
      audio_queue_in := [⟨[0], 0⟩, ⟨[1], 1⟩, ⟨[2], 2⟩, ⟨[3], 3⟩, ⟨[4], 4⟩] }
      ⟨[5], 5⟩ ⟨[0], 0⟩ [⟨[1], 1⟩, ⟨[2], 2⟩, ⟨[3], 3⟩, ⟨[4], 4⟩]
      [⟨[5], 5⟩, ⟨[6], 6⟩]).2.1 (by decide) (by decide)).2.1⟩

/-- A video deposit into a queue within capacity leaves exactly the new
frame. -/
theorem videoDeposit_queue (s : ClientState) (f : TimestampedData)
    (h : s.video_queue_in.length ≤ SCREEN_QUEUE_SIZE) :
    (videoDeposit s f).video_queue_in = [f] := by
  unfold videoDeposit
  rcases hq : s.video_queue_in with _ | ⟨x, rest⟩ <;>
    rw [hq] at h <;>
    simp only [hq, List.length_cons, List.length_nil, SCREEN_QUEUE_SIZE] at h ⊢ <;>
    split <;> (try split) <;>
    simp_all [SCREEN_QUEUE_SIZE]

/-- Claim C4: after any deposit the capacity-1 video queue holds exactly the
most recently deposited frame, whatever the age of the previous occupant;
replacing an occupant counts one screen drop, filling an empty queue counts
none; this persists over any deposit sequence. -/
theorem C4_video_latest_only (s : ClientState) (f : TimestampedData)
    (fs : List TimestampedData) :
    (s.video_queue_in.length ≤ SCREEN_QUEUE_SIZE →
      (videoDeposit s f).video_queue_in = [f]) ∧
    (s.video_queue_in.length = SCREEN_QUEUE_SIZE →
      (videoDeposit s f).screen_drop_count = s.screen_drop_count + 1) ∧
    (s.video_queue_in = [] →
      (videoDeposit s f).screen_drop_count = s.screen_drop_count) ∧
    (s.video_queue_in.length ≤ SCREEN_QUEUE_SIZE →
      (List.foldl videoDeposit s (fs ++ [f])).video_queue_in = [f]) := by
  refine ⟨videoDeposit_queue s f, ?_, ?_, ?_⟩
  · intro hlen
    rcases hq : s.video_queue_in with _ | ⟨x, rest⟩
    · rw [hq] at hlen; simp [SCREEN_QUEUE_SIZE] at hlen
    · rw [hq] at hlen
      simp only [List.length_cons, SCREEN_QUEUE_SIZE] at hlen
      have hr : rest = [] := List.length_eq_zero.mp (by omega)
      subst hr
      simp [videoDeposit, hq, SCREEN_QUEUE_SIZE]
  · intro hq
    simp [videoDeposit, hq, SCREEN_QUEUE_SIZE]
  · intro h
    induction fs generalizing s with
    | nil => simpa using videoDeposit_queue s f h
    | cons g gs ih =>
      have h1 : (videoDeposit s g).video_queue_in.length ≤ SCREEN_QUEUE_SIZE := by
        rw [videoDeposit_queue s g h]
        simp [SCREEN_QUEUE_SIZE]
      simpa using ih _ h1

/-- Witness for C4: depositing onto an occupied capacity-1 queue leaves the
new frame alone and counts a drop; a fold of three deposits ends with the
last frame. -/
theorem C4_video_latest_only_witness :
    (videoDeposit { initState false with video_queue_in := [⟨[7], 0⟩] }
      ⟨[8], 9⟩).video_queue_in = [⟨[8], 9⟩] ∧
    (videoDeposit { initState false with video_queue_in := [⟨[7], 0⟩] }
      ⟨[8], 9⟩).screen_drop_count =
      ({ initState false with video_queue_in := [⟨[7], 0⟩] }
        : ClientState).screen_drop_count + 1 ∧
    (List.foldl videoDeposit { initState false with video_queue_in := [⟨[7], 0⟩] }
      ([⟨[1], 1⟩, ⟨[2], 2⟩] ++ [⟨[3], 3⟩])).video_queue_in = [⟨[3], 3⟩] :=
  ⟨(C4_video_latest_only { initState false with video_queue_in := [⟨[7], 0⟩] }
      ⟨[8], 9⟩ [⟨[1], 1⟩, ⟨[2], 2⟩]).1 (by decide),
   (C4_video_latest_only { initState false with video_queue_in := [⟨[7], 0⟩] }
      ⟨[8], 9⟩ [⟨[1], 1⟩, ⟨[2], 2⟩]).2.1 (by decide),
   (C4_video_latest_only { initState false with video_queue_in := [⟨[7], 0⟩] }
      ⟨[3], 3⟩ [⟨[1], 1⟩, ⟨[2], 2⟩]).2.2.2 (by decide)⟩

/-- Freshness invariant of the modelled uuid supply: every turn id handed
out so far is below the counter for the next one. -/
def FreshInv (s : ClientState) : Prop :=
  ∀ i ∈ s.assigned_ids, i < s.next_turn_counter

/-- Claim C5: entering Active — PTT press from inactive, or toggle-mute
unmute — clears both queues, assigns a non-null turn id that was never
assigned before (under the fresh-supply invariant, which both transitions
preserve), and resets `chunks_sent` to 0; a PTT press while already active
(key-repeat) changes no state at all. -/
theorem C5_turn_start (now : ℚ) (s : ClientState) :
    (s.ptt_active = true → on_ptt_press s = s) ∧
    (s.ptt_active = false →
      (on_ptt_press s).audio_queue_in = [] ∧
      (on_ptt_press s).video_queue_in = [] ∧
      (on_ptt_press s).current_turn_id = some s.next_turn_counter ∧
      (on_ptt_press s).audio_chunks_sent_this_turn = 0 ∧
      (FreshInv s → s.next_turn_counter ∉ s.assigned_ids) ∧
      (FreshInv s → FreshInv (on_ptt_press s))) ∧
    (s.muted = true →
      (toggle_mute now s).audio_queue_in = [] ∧
      (toggle_mute now s).video_queue_in = [] ∧
      (toggle_mute now s).current_turn_id = some s.next_turn_counter ∧
      (toggle_mute now s).audio_chunks_sent_this_turn = 0 ∧
      (FreshInv s → s.next_turn_counter ∉ s.assigned_ids) ∧
      (FreshInv s → FreshInv (toggle_mute now s))) := by
  refine ⟨fun h => by simp [on_ptt_press, h], fun h => ?_, fun h => ?_⟩
  · refine ⟨by simp [on_ptt_press, enterActive, h],
      by simp [on_ptt_press, enterActive, h],
      by simp [on_ptt_press, enterActive, h],
      by simp [on_ptt_press, enterActive, h],
      fun hF hmem => lt_irrefl _ (hF _ hmem), fun hF i hi => ?_⟩
    simp [on_ptt_press, enterActive, h] at hi ⊢
    rcases hi with hi | rfl
    · exact Nat.lt_succ_of_lt (hF i hi)
    · exact Nat.lt_succ_self _
  · refine ⟨by simp [toggle_mute, enterActive, h],
      by simp [toggle_mute, enterActive, h],
      by simp [toggle_mute, enterActive, h],
      by simp [toggle_mute, enterActive, h],
      fun hF hmem => lt_irrefl _ (hF _ hmem), fun hF i hi => ?_⟩
    simp [toggle_mute, enterActive, h] at hi ⊢
    rcases hi with hi | rfl
    · exact Nat.lt_succ_of_lt (hF i hi)
    · exact Nat.lt_succ_self _

/-- Witness for C5 at concrete states: a press from inactive PTT starts turn
id 0 with cleared queues and counters, and a key-repeat press is a no-op. -/
theorem C5_turn_start_witness :
    on_ptt_press { initState true with ptt_active := true } =
      { initState true with ptt_active := true } ∧
    (on_ptt_press { initState true with
        audio_queue_in := [⟨[1], 0⟩] }).audio_queue_in = [] ∧
    (on_ptt_press { initState true with
        audio_queue_in := [⟨[1], 0⟩] }).current_turn_id =
      some ({ initState true with
        audio_queue_in := [⟨[1], 0⟩] } : ClientState).next_turn_counter :=
  ⟨(C5_turn_start 0 { initState true with ptt_active := true }).1 (by decide),
   ((C5_turn_start 0 { initState true with
      audio_queue_in := [⟨[1], 0⟩] }).2.1 (by decide)).1,
   ((C5_turn_start 0 { initState true with
      audio_queue_in := [⟨[1], 0⟩] }).2.1 (by decide)).2.2.1⟩

/-- The adaptive-FPS adjustment keeps the rate within
`[SCREEN_FPS_MIN, SCREEN_FPS]`. -/
theorem fpsAdjust_bounds (fps : Nat) (avg : ℚ)
    (h1 : SCREEN_FPS_MIN ≤ fps) (h2 : fps ≤ SCREEN_FPS) :
    SCREEN_FPS_MIN ≤ fpsAdjust fps avg ∧ fpsAdjust fps avg ≤ SCREEN_FPS := by
  unfold fpsAdjust
  simp only [SCREEN_FPS_MIN, SCREEN_FPS] at h1 h2 ⊢
  split
  · omega
  · split <;> omega

/-- A video deposit touches only the video queue and the screen drop
counter. -/
theorem videoDeposit_preserves (s : ClientState) (f : TimestampedData) :
    (videoDeposit s f).current_screen_fps = s.current_screen_fps ∧
    (videoDeposit s f).frame_count = s.frame_count ∧
    (videoDeposit s f).screen_latency_window = s.screen_latency_window ∧
    (videoDeposit s f).audio_queue_in = s.audio_queue_in := by
  unfold videoDeposit
  split
  · split
    · simp
    · split <;> simp
  · simp

/-- An audio deposit touches only the audio queue and the audio drop
counter. -/
theorem audioDeposit_preserves (s : ClientState) (item : TimestampedData) :
    (audioDeposit s item).current_screen_fps = s.current_screen_fps ∧
    (audioDeposit s item).video_queue_in = s.video_queue_in ∧
    (audioDeposit s item).muted = s.muted ∧
    (audioDeposit s item).ptt_active = s.ptt_active ∧
    (audioDeposit s item).push_to_talk_mode = s.push_to_talk_mode := by
  unfold audioDeposit
  split
  · split
    · simp
    · split <;> simp
  · simp

/-- The FPS after one `capture_screen` iteration: adjusted on every 30th
frame against the rolling screen-latency mean, untouched otherwise; the
frame counter always advances by one. -/
theorem captureScreenStep_fps (s : ClientState) (f : TimestampedData) :
    ((captureScreenStep s f).current_screen_fps =
      if (s.frame_count + 1) % 30 = 0 then
        fpsAdjust s.current_screen_fps (windowAvg s.screen_latency_window)
      else s.current_screen_fps) ∧
    (captureScreenStep s f).frame_count = s.frame_count + 1 := by
  obtain ⟨hv1, hv2, hv3, hv4⟩ := videoDeposit_preserves s f
  unfold captureScreenStep
  simp only [hv1, hv2, hv3]
  constructor <;> split <;> simp_all

/-- Every coordinator event keeps the adaptive FPS within
`[SCREEN_FPS_MIN, SCREEN_FPS]`. -/
theorem step_fps_bounds (s : ClientState) (e : Ev)
    (h1 : SCREEN_FPS_MIN ≤ s.current_screen_fps)
    (h2 : s.current_screen_fps ≤ SCREEN_FPS) :
    SCREEN_FPS_MIN ≤ (step s e).current_screen_fps ∧
    (step s e).current_screen_fps ≤ SCREEN_FPS := by
  cases e with
  | listen d now =>
    simp only [step, listenStep]
    split
    · simpa [(audioDeposit_preserves s ⟨d, now⟩).1] using ⟨h1, h2⟩
    · exact ⟨h1, h2⟩
  | toggle now =>
    simp only [step, toggle_mute]
    split
    · simpa [enterActive] using ⟨h1, h2⟩
    · split <;> simpa [request_turn_end] using ⟨h1, h2⟩
  | pttPress =>
    simp only [step, on_ptt_press]
    split
    · exact ⟨h1, h2⟩
    · simpa [enterActive] using ⟨h1, h2⟩
  | pttRelease now =>
    simp only [step, on_ptt_release]
    split
    · exact ⟨h1, h2⟩
    · split
      · split <;> simpa [request_turn_end] using ⟨h1, h2⟩
      · exact ⟨h1, h2⟩
  | screenCap f =>
    have hc := (captureScreenStep_fps s f).1
    simp only [step]
    rw [hc]
    split
    · exact fpsAdjust_bounds _ _ h1 h2
    · exact ⟨h1, h2⟩
  | tick now =>
    simp only [step]
    rw [sendTick_fst]
    exact ⟨h1, h2⟩

/-- Claim C6: under every sequence of coordinator events — in particular
under arbitrary screen-latency observations feeding the adaptive
controller — `current_screen_fps` never leaves
`[SCREEN_FPS_MIN, SCREEN_FPS] = [1, 2]`. -/
theorem C6_fps_never_leaves_bounds (s : ClientState) (evs : List Ev)
    (h1 : SCREEN_FPS_MIN ≤ s.current_screen_fps)
    (h2 : s.current_screen_fps ≤ SCREEN_FPS) :
    SCREEN_FPS_MIN ≤ (run s evs).current_screen_fps ∧
    (run s evs).current_screen_fps ≤ SCREEN_FPS := by
  induction evs generalizing s with
  | nil => exact ⟨h1, h2⟩
  | cons e evs ih =>
    have h := step_fps_bounds s e h1 h2
    simpa [run, List.foldl_cons] using ih (step s e) h.1 h.2

/-- Witness for C6: from the initial state, a run with a saturated latency
window keeps the FPS within `[1, 2]`. -/
theorem C6_fps_never_leaves_bounds_witness :
    SCREEN_FPS_MIN ≤ (run (initState false)
      [Ev.screenCap ⟨[1], 0⟩, Ev.tick 2, Ev.screenCap ⟨[2], 2⟩]).current_screen_fps ∧
    (run (initState false)
      [Ev.screenCap ⟨[1], 0⟩, Ev.tick 2, Ev.screenCap ⟨[2], 2⟩]).current_screen_fps ≤
      SCREEN_FPS :=
  C6_fps_never_leaves_bounds (initState false)
    [Ev.screenCap ⟨[1], 0⟩, Ev.tick 2, Ev.screenCap ⟨[2], 2⟩]
    (by decide) (by decide)

/-- Claim C7 counterexample: on a 30th captured frame with the rolling mean
screen latency exactly 80% of the budget (400 ms of 500 ms), the code does
not decrement `current_screen_fps` — its test is strict `>` — while the
claim's `mean ≥ 80%` condition demands a decrement from 2 to 1. -/
theorem C7_counterexample :
    (({ initState false with
        frame_count := 29, screen_latency_window := [400] } : ClientState).frame_count + 1) % 30 = 0 ∧
    SCREEN_MAX_AGE_MS * (8 / 10) ≤
      windowAvg ({ initState false with
        frame_count := 29, screen_latency_window := [400] } : ClientState).screen_latency_window ∧
    (captureScreenStep { initState false with
        frame_count := 29, screen_latency_window := [400] } ⟨[1], 0⟩).current_screen_fps = 2 ∧
    max SCREEN_FPS_MIN (({ initState false with
        frame_count := 29, screen_latency_window := [400] } : ClientState).current_screen_fps - 1) = 1 ∧
    (2 : Nat) ≠ 1 := by
  refine ⟨by decide, ?_, ?_, by decide, by decide⟩
  · norm_num [SCREEN_MAX_AGE_MS, windowAvg]
  · rw [(captureScreenStep_fps _ _).1]
    norm_num [windowAvg, fpsAdjust, SCREEN_MAX_AGE_MS, SCREEN_FPS,
      SCREEN_FPS_MIN, initState]

/-- Claim C7 (amended): on every 30th captured screen frame, if the rolling
mean screen-send latency is strictly greater than 80% of the screen age
budget then `current_screen_fps` is decremented (floored at
`SCREEN_FPS_MIN`); if the mean is below 30% of the budget and the FPS is
below `SCREEN_FPS` it is incremented; otherwise, and on every other frame,
the FPS is unchanged.  (The code's decrement test is strict `>`, not the
claimed `≥`.) -/
theorem C7_fps_adjustment_rule (s : ClientState) (f : TimestampedData) :
    ((s.frame_count + 1) % 30 = 0 →
      (SCREEN_MAX_AGE_MS * (8 / 10) < windowAvg s.screen_latency_window →
        (captureScreenStep s f).current_screen_fps =
          max SCREEN_FPS_MIN (s.current_screen_fps - 1)) ∧
      (windowAvg s.screen_latency_window < SCREEN_MAX_AGE_MS * (3 / 10) ∧
          s.current_screen_fps < SCREEN_FPS →
        (captureScreenStep s f).current_screen_fps =
          min SCREEN_FPS (s.current_screen_fps + 1)) ∧
      (¬(SCREEN_MAX_AGE_MS * (8 / 10) < windowAvg s.screen_latency_window) ∧
          ¬(windowAvg s.screen_latency_window < SCREEN_MAX_AGE_MS * (3 / 10) ∧
            s.current_screen_fps < SCREEN_FPS) →
        (captureScreenStep s f).current_screen_fps = s.current_screen_fps)) ∧
    ((s.frame_count + 1) % 30 ≠ 0 →
      (captureScreenStep s f).current_screen_fps = s.current_screen_fps) := by
  have hc := (captureScreenStep_fps s f).1
  constructor
  · intro h30
    rw [hc, if_pos h30]
    refine ⟨fun hd => ?_, fun hi => ?_, fun hn => ?_⟩
    · rw [fpsAdjust, if_pos hd]
    · have hnd : ¬(SCREEN_MAX_AGE_MS * (8 / 10) < windowAvg s.screen_latency_window) := by
        rcases hi with ⟨hlt, _⟩
        intro hgt
        have : SCREEN_MAX_AGE_MS * (3 / 10) ≤ SCREEN_MAX_AGE_MS * (8 / 10) := by
          norm_num [SCREEN_MAX_AGE_MS]
        linarith
      rw [fpsAdjust, if_neg hnd, if_pos hi]
    · rw [fpsAdjust, if_neg hn.1, if_neg hn.2]
  · intro h30
    rw [hc, if_neg h30]

/-- Witness for the amended C7: a 30th frame with mean latency 401 ms
(strictly above 80% of the 500 ms budget) decrements the FPS from 2 to 1. -/
theorem C7_fps_adjustment_rule_witness :
    (captureScreenStep { initState false with
        frame_count := 29, screen_latency_window := [401] } ⟨[1], 0⟩).current_screen_fps =
      max SCREEN_FPS_MIN (({ initState false with
        frame_count := 29, screen_latency_window := [401] } : ClientState).current_screen_fps - 1) :=
  ((C7_fps_adjustment_rule { initState false with
      frame_count := 29, screen_latency_window := [401] } ⟨[1], 0⟩).1 (by decide)).1
    (by norm_num [SCREEN_MAX_AGE_MS, windowAvg])

/-- Claim C8: within one egress tick the audio queue is drained to empty
before at most one video frame is considered.  The forwarded-payload list is
(an optional silence chunk, then) every within-budget audio chunk in queue
order, then at most one video frame; each over-budget audio chunk is counted
as a drop; each forwarded audio chunk records its send latency and bumps
`chunks_sent`; the popped video frame is forwarded exactly when the
active-turn gate passes and the frame is within the screen-age budget,
and is discarded otherwise. -/
theorem C8_egress_priority_drain (now : ℚ) (s : ClientState) :
    (sendTick now s).1.audio_queue_in = [] ∧
    (sendTick now s).1.video_queue_in = s.video_queue_in.tail ∧
    (sendTick now s).1.audio_drop_count =
      s.audio_drop_count + (staleOf now s.audio_queue_in).length ∧
    (sendTick now s).1.audio_chunks_sent_this_turn =
      s.audio_chunks_sent_this_turn + (freshOf now s.audio_queue_in).length ∧
    (sendTick now s).1.audio_latency_window =
      List.foldl pushWindow s.audio_latency_window
        ((freshOf now s.audio_queue_in).map (ageMs now)) ∧
    (sendTick now s).2 =
      (if 0 < s.silence_chunks_to_send then [Sent.mk true silenceBytes] else [])
        ++ (freshOf now s.audio_queue_in).map (fun t => Sent.mk true t.data)
        ++ videoSent now s ∧
    (sendTick now s).1.screen_latency_window = videoWindowAfter now s := by
  refine ⟨?_, ?_, ?_, ?_, ?_, ?_, ?_⟩ <;>
    simp [sendTick_fst, sendTick_snd]

/-- Members of the audio queue after a deposit come from the old queue or
are the deposited item. -/
theorem audioDeposit_mem (s : ClientState) (item x : TimestampedData)
    (hx : x ∈ (audioDeposit s item).audio_queue_in) :
    x ∈ s.audio_queue_in ∨ x = item := by
  unfold audioDeposit at hx
  rcases hq : s.audio_queue_in with _ | ⟨e, rest⟩ <;>
    simp only [hq] at hx ⊢
  · simp at hx
    exact Or.inr hx
  · split at hx
    · split at hx
      · simp at hx
        exact Or.inl (List.mem_cons_of_mem _ hx)
      · simp at hx
        rcases hx with h | h
        · exact Or.inl (List.mem_cons_of_mem _ h)
        · exact Or.inr h
    · simp at hx
      rcases hx with h | h | h
      · exact Or.inl (by simp [h])
      · exact Or.inl (by simp [h])
      · exact Or.inr h

/-- A `capture_screen` iteration leaves the audio queue untouched. -/
theorem captureScreenStep_audio (s : ClientState) (f : TimestampedData) :
    (captureScreenStep s f).audio_queue_in = s.audio_queue_in := by
  obtain ⟨hv1, hv2, hv3, hv4⟩ := videoDeposit_preserves s f
  unfold captureScreenStep
  simp only [hv1, hv2, hv3]
  split <;> simp_all

/-- Provenance of audio-queue members across one coordinator event: an item
present after the step was either already queued, or was deposited by an
unmuted microphone read in this very step. -/
theorem step_audio_mem (s : ClientState) (e : Ev) (x : TimestampedData)
    (hx : x ∈ (step s e).audio_queue_in) :
    x ∈ s.audio_queue_in ∨
      ∃ d now, e = Ev.listen d now ∧ mutedOf s = false ∧ x = ⟨d, now⟩ := by
  cases e with
  | listen d now =>
    simp only [step, listenStep] at hx
    split at hx
    · rename_i hcond
      rcases audioDeposit_mem s ⟨d, now⟩ x hx with h | h
      · exact Or.inl h
      · exact Or.inr ⟨d, now, rfl, hcond.2, h⟩
    · exact Or.inl hx
  | toggle now =>
    simp only [step, toggle_mute] at hx
    split at hx
    · simp [enterActive] at hx
    · split at hx
      · simp [request_turn_end] at hx
        exact Or.inl hx
      · exact Or.inl hx
  | pttPress =>
    simp only [step, on_ptt_press] at hx
    split at hx
    · exact Or.inl hx
    · simp [enterActive] at hx
  | pttRelease now =>
    simp only [step, on_ptt_release] at hx
    split at hx
    · exact Or.inl hx
    · split at hx
      · split at hx
        · simp [request_turn_end] at hx
          exact Or.inl hx
        · exact Or.inl hx
      · exact Or.inl hx
  | screenCap f =>
    simp only [step, captureScreenStep_audio] at hx
    exact Or.inl hx
  | tick now =>
    simp only [step] at hx
    rw [sendTick_fst] at hx
    simp at hx

/-- Claim C10: microphone data read while muted is never deposited — the
listen step is a no-op on the whole state when muted — and therefore, over
any event sequence, every item in the audio queue either was there at the
start or was deposited by a listen event at whose point the client was
unmuted. -/
theorem C10_muted_audio_never_enqueued (evs : List Ev) (s : ClientState)
    (x : TimestampedData) :
    (∀ d now, mutedOf s = true → listenStep s d now = s) ∧
    (x ∈ (run s evs).audio_queue_in →
      x ∈ s.audio_queue_in ∨
        ∃ pre d now post,
          evs = pre ++ Ev.listen d now :: post ∧
          mutedOf (run s pre) = false ∧ x = ⟨d, now⟩) := by
  constructor
  · intro d now hm
    simp [listenStep, hm]
  · induction evs generalizing s with
    | nil =>
      intro hx
      exact Or.inl (by simpa [run] using hx)
    | cons e rest ih =>
      intro hx
      have hx' : x ∈ (run (step s e) rest).audio_queue_in := by
        simpa [run, List.foldl_cons] using hx
      rcases ih (step s e) hx' with h | ⟨pre, d, now, post, hsplit, hmut, hxe⟩
      · rcases step_audio_mem s e x h with h2 | ⟨d, now, rfl, hm, hxe⟩
        · exact Or.inl h2
        · exact Or.inr ⟨[], d, now, rest, by simp, by simpa [run] using hm, hxe⟩
      · refine Or.inr ⟨e :: pre, d, now, post, by simp [hsplit], ?_, hxe⟩
        simpa [run, List.foldl_cons] using hmut

/-- Witness for C10: a muted listen step is the identity on a concrete
state, and the item deposited by a concrete unmuted listen event is traced
back to that event. -/
theorem C10_muted_audio_never_enqueued_witness :
    listenStep { initState false with muted := true } [1] 0 =
      { initState false with muted := true } ∧
    ((⟨[1], 0⟩ : TimestampedData) ∈
        ({ initState false with muted := false } : ClientState).audio_queue_in ∨
      ∃ pre d now post,
        [Ev.listen [1] 0] = pre ++ Ev.listen d now :: post ∧
        mutedOf (run { initState false with muted := false } pre) = false ∧
        (⟨[1], 0⟩ : TimestampedData) = ⟨d, now⟩) :=
  ⟨(C10_muted_audio_never_enqueued [] { initState false with muted := true }
      ⟨[1], 0⟩).1 [1] 0 (by decide),
   (C10_muted_audio_never_enqueued [Ev.listen [1] 0]
      { initState false with muted := false } ⟨[1], 0⟩).2 (by decide)⟩

end GeminiLive
